import Mathlib

/-!
Verification development for the plaso event-filter engine and the Android
bugreport text plugin.

The filter engine (lexer, query grammar, attribute resolver, operator
library, matcher, producer pre-selection) is exercised by
`src/plaso/lib/pfilter_test.py` but its implementation modules
(`pfilter.py`, `objectfilter.py`, `putils.py`) are not part of the source
tree under verification, so the engine below is modelled from the
specification, with the test file pinning the concrete expected behavior.
The Android bugreport plugin (`src/plaso/parsers/android_bugreport.py`) is
embedded from its source.
-/

/-! ## Character and string helpers (ASCII, as the engine's queries are) -/

/-- Lowercase a single ASCII character. -/
def lowerChar (c : Char) : Char :=
  if 'A' ≤ c ∧ c ≤ 'Z' then Char.ofNat (c.toNat + 32) else c

/-- Lowercase every character of a string. -/
def lowerStr (s : String) : String :=
  String.mk (s.data.map lowerChar)

/-- `listIsPrefix n h` is true when `n` is a prefix of `h`. -/
def listIsPrefix : List Char → List Char → Bool
  | [], _ => true
  | _ :: _, [] => false
  | a :: as, b :: bs => a == b && listIsPrefix as bs

/-- `listContains n h` is true when `n` occurs contiguously inside `h`. -/
def listContains (n : List Char) : List Char → Bool
  | [] => listIsPrefix n []
  | c :: t => listIsPrefix n (c :: t) || listContains n t

theorem listIsPrefix_iff (n h : List Char) :
    listIsPrefix n h = true ↔ ∃ q, h = n ++ q := by
  induction n generalizing h with
  | nil =>
    simp [listIsPrefix]
  | cons a as ih =>
    cases h with
    | nil =>
      simp [listIsPrefix]
    | cons b bs =>
      simp only [listIsPrefix, Bool.and_eq_true, beq_iff_eq, ih, List.cons_append,
        List.cons.injEq]
      constructor
      · rintro ⟨rfl, q, rfl⟩
        exact ⟨q, rfl, rfl⟩
      · rintro ⟨q, rfl, rfl⟩
        exact ⟨rfl, q, rfl⟩

theorem listContains_iff (n h : List Char) :
    listContains n h = true ↔ ∃ p q, h = p ++ n ++ q := by
  induction h with
  | nil =>
    simp only [listContains, listIsPrefix_iff]
    constructor
    · rintro ⟨q, hq⟩
      exact ⟨[], q, by simpa using hq⟩
    · rintro ⟨p, q, hpq⟩
      rcases List.append_eq_nil.mp (List.append_eq_nil.mp hpq.symm).1 with ⟨_, h2⟩
      exact ⟨q, by simp_all⟩
  | cons c t ih =>
    simp only [listContains, Bool.or_eq_true, listIsPrefix_iff, ih]
    constructor
    · rintro (⟨q, hq⟩ | ⟨p, q, hpq⟩)
      · exact ⟨[], q, by simpa using hq⟩
      · exact ⟨c :: p, q, by simp [hpq]⟩
    · rintro ⟨p, q, hpq⟩
      cases p with
      | nil => exact Or.inl ⟨q, by simpa using hpq⟩
      | cons x xs =>
        simp only [List.cons_append, List.cons.injEq] at hpq
        exact Or.inr ⟨xs, q, hpq.2⟩

/-- Parse a run of decimal digits as a natural number. -/
def natOfDigits (ds : List Char) : Nat :=
  ds.foldl (fun n c => n * 10 + (c.toNat - 48)) 0

/-- Split a list at the longest prefix satisfying `p`. -/
def spanP (p : Char → Bool) : List Char → List Char × List Char
  | [] => ([], [])
  | c :: rest =>
    if p c then
      let s := spanP p rest
      (c :: s.1, s.2)
    else ([], c :: rest)

/-! ## Data model of the filter engine

Modelled from the spec: pfilter/objectfilter are not in the source tree;
the types below follow spec sections 3 and 4.3 (values, literals, records
with an owning container, nested string-keyed maps, the synthetic `date`
attribute carrying the record's primary timestamp). -/

/-- A resolved attribute value: a scalar string or integer, a nested
string-keyed map, or the synthetic timestamp (microseconds since epoch). -/
inductive Value where
  | str (s : String)
  | int (n : Int)
  | dict (entries : List (String × Value))
  | tstamp (micro : Int)

/-- A query literal: string or integer. -/
inductive Literal where
  | str (s : String)
  | int (n : Int)
deriving DecidableEq

/-- The comparison operators of the modelled fragment (the regex operators
are lexed but lie outside the fragment the claims touch). -/
inductive Op where
  | eq
  | contains
  | lt
  | le
  | gt
  | ge
deriving DecidableEq

/-- The evaluation target: a flat attribute set, the owning container's
attribute set, the primary timestamp in microseconds since epoch, and the
record's assigned timezone as an offset in microseconds (UTC = 0). -/
structure Record where
  attrs : List (String × Value)
  containerAttrs : List (String × Value)
  timestamp : Int
  zoneOffset : Int

/-- Exact-key lookup in an attribute set (Python attribute access). -/
def lookupAttr : List (String × Value) → String → Option Value
  | [], _ => none
  | (k, v) :: rest, key => if k = key then some v else lookupAttr rest key

/-- Modelled from the spec: segment normalization for nested-map lookup
strips non-alphanumeric characters and ignores case (spec section 3,
AttributePath). -/
def normalizeKey (s : String) : String :=
  String.mk ((s.data.filter Char.isAlphanum).map lowerChar)

/-- Lookup into a nested map under normalized key comparison; the first
entry whose normalized key matches the normalized segment wins. -/
def dictLookup (seg : String) : List (String × Value) → Option Value
  | [] => none
  | (k, v) :: rest =>
    if normalizeKey k = normalizeKey seg then some v else dictLookup seg rest

/-- Descend from a resolved value through the remaining path segments;
only nested maps admit further segments (spec section 4.3 step 3). -/
def resolveInto (v : Value) : List String → Option Value
  | [] => some v
  | seg :: rest =>
    match v with
    | Value.dict entries => (dictLookup seg entries).bind (fun w => resolveInto w rest)
    | _ => none

/-- Modelled from the spec: the domain front-end aliases `source` to
`source_short` (spec section 2, Domain Front-End). -/
def aliasSegment (s : String) : String :=
  if s = "source" then "source_short" else s

/-- Modelled from the spec: attribute resolution (spec section 4.3).
The reserved path `date` resolves to the record's primary timestamp;
otherwise the first segment is looked up on the record's own attributes,
falling back to the owning container's attributes, then the remaining
segments descend through nested maps. -/
def resolvePath (r : Record) : List String → Option Value
  | [] => none
  | seg :: rest =>
    if seg = "date" then
      match rest with
      | [] => some (Value.tstamp r.timestamp)
      | _ :: _ => none
    else
      match lookupAttr r.attrs (aliasSegment seg) with
      | some v => resolveInto v rest
      | none =>
        match lookupAttr r.containerAttrs (aliasSegment seg) with
        | some v => resolveInto v rest
        | none => none

/-! ## Date literals

Modelled from the spec: date literals are parsed from their textual form
(`YYYY-MM-DD`, optionally followed by `T` or a space and `HH:MM:SS` with an
optional fraction) and compared chronologically against the record's
primary timestamp, interpreting the literal in the record's assigned
timezone (spec sections 4.3 and 4.4). -/

/-- Days since 1970-01-01 of a proleptic-Gregorian civil date (valid for
dates from 1970 on, which is all the engine's literals need). -/
def daysFromCivil (y m d : Nat) : Nat :=
  let y' := if m ≤ 2 then y - 1 else y
  let era := y' / 400
  let yoe := y' - era * 400
  let mp := (m + 9) % 12
  let doy := (153 * mp + 2) / 5 + d - 1
  let doe := yoe * 365 + yoe / 4 - yoe / 100 + doy
  era * 146097 + doe - 719468

/-- Microseconds since epoch of a civil date-time. -/
def epochMicro (y mo d h mi s micro : Nat) : Int :=
  Int.ofNat (((daysFromCivil y mo d) * 86400 + h * 3600 + mi * 60 + s) * 1000000 + micro)

/-- Scale a fractional-seconds digit run to microseconds. -/
def fracToMicro (ds : List Char) : Nat :=
  natOfDigits ds * 10 ^ (6 - ds.length)

/-- Parse the optional time-of-day part of a date literal. -/
def parseTimePart (y mo d : Nat) : List Char → Option Int
  | [] => some (epochMicro y mo d 0 0 0 0)
  | sep :: r =>
    if sep = 'T' ∨ sep = ' ' then
      let (hd, r1) := spanP Char.isDigit r
      match r1 with
      | ':' :: r2 =>
        let (mid, r3) := spanP Char.isDigit r2
        match r3 with
        | ':' :: r4 =>
          let (sd, r5) := spanP Char.isDigit r4
          match r5 with
          | [] => some (epochMicro y mo d (natOfDigits hd) (natOfDigits mid) (natOfDigits sd) 0)
          | '.' :: r6 =>
            let (fd, r7) := spanP Char.isDigit r6
            match r7 with
            | [] => some (epochMicro y mo d (natOfDigits hd) (natOfDigits mid) (natOfDigits sd)
                (fracToMicro fd))
            | _ :: _ => none
          | _ :: _ => none
        | _ => none
      | _ => none
    else none

/-- Parse a date literal into microseconds since epoch, before timezone
adjustment. -/
def parseDateLiteral (s : String) : Option Int :=
  let (yd, r1) := spanP Char.isDigit s.data
  match r1 with
  | '-' :: r2 =>
    let (mod_, r3) := spanP Char.isDigit r2
    match r3 with
    | '-' :: r4 =>
      let (dd, r5) := spanP Char.isDigit r4
      parseTimePart (natOfDigits yd) (natOfDigits mod_) (natOfDigits dd) r5
    | _ => none
  | _ => none

/-! ## Operator library

Modelled from the spec (section 4.4): each operator is a pure function from
a resolved value and a literal to a boolean; incompatible kinds yield
false. The domain's `contains` lowercases both sides — the case-insensitive
substring policy pinned by the test
(`pfilter_test.py`: `filename contains 'GoodFella'` matches a lowercase
`goodfella` path). -/

/-- The string form of a resolved value, when it has one. -/
def strForm : Value → Option String
  | Value.str s => some s
  | Value.int n => some (toString n)
  | _ => none

/-- A literal viewed as a point on the timestamp axis: an integer literal
is taken as microseconds directly; a string literal is parsed as a date in
the record's assigned timezone. -/
def litDateMicros (lit : Literal) (zone : Int) : Option Int :=
  match lit with
  | Literal.str s => (parseDateLiteral s).map (fun m => m - zone)
  | Literal.int n => some n

/-- Numeric view of a value/literal pair for the ordering operators. -/
def ordNum (v : Value) (lit : Literal) (zone : Int) : Option (Int × Int) :=
  match v, lit with
  | Value.int n, Literal.int m => some (n, m)
  | Value.tstamp t, _ => (litDateMicros lit zone).map (fun m => (t, m))
  | _, _ => none

/-- Apply a comparison operator to a resolved value and a literal. -/
def evalOpCore (v : Value) (op : Op) (lit : Literal) (zone : Int) : Bool :=
  match op with
  | Op.contains =>
    match strForm v, lit with
    | some s, Literal.str t => listContains (lowerStr t).data (lowerStr s).data
    | _, _ => false
  | Op.eq =>
    match v, lit with
    | Value.str s, Literal.str t => s == t
    | Value.int n, Literal.int m => n == m
    | Value.tstamp t, _ => (litDateMicros lit zone).elim false (fun m => t == m)
    | _, _ => false
  | Op.lt => (ordNum v lit zone).elim false (fun p => decide (p.1 < p.2))
  | Op.le => (ordNum v lit zone).elim false (fun p => decide (p.1 ≤ p.2))
  | Op.gt => (ordNum v lit zone).elim false (fun p => decide (p.2 < p.1))
  | Op.ge => (ordNum v lit zone).elim false (fun p => decide (p.2 ≤ p.1))

/-! ## AST and evaluation -/

/-- A comparison terminal: attribute path, negation flag (the DSL's
`not`-before-operator and `is not` forms), operator, literal. -/
structure Comparison where
  path : List String
  negated : Bool
  op : Op
  lit : Literal

/-- Evaluate a comparison against a record. An absent resolved value makes
every operator yield false, so the negated form yields true (spec section
4.4, absent policy). -/
def evalComparison (r : Record) (c : Comparison) : Bool :=
  match resolvePath r c.path with
  | none => c.negated
  | some v => (evalOpCore v c.op c.lit r.zoneOffset) != c.negated

/-- The closed set of AST node kinds (spec section 3). -/
inductive Ast where
  | cmp (c : Comparison)
  | conj (a b : Ast)
  | disj (a b : Ast)

/-- Evaluate a compiled query against a record. Total: per-record
evaluation never raises (spec section 7). -/
def evalAst (r : Record) : Ast → Bool
  | Ast.cmp c => evalComparison r c
  | Ast.conj a b => evalAst r a && evalAst r b
  | Ast.disj a b => evalAst r a || evalAst r b

/-! ## Lexer

Modelled from the spec (section 4.1): single- and double-quoted string
literals without escape processing, digit runs as numbers, dotted
identifiers as attribute paths, case-insensitive keywords, the symbolic
ordering operators, and parentheses; whitespace is insignificant outside
literals. -/

/-- The token kinds the lexer produces. -/
inductive Tok where
  | path (segs : List String)
  | strLit (s : String)
  | numLit (n : Int)
  | opTok (o : Op)
  | regexTok (caseInsensitive : Bool)
  | kwAnd
  | kwOr
  | kwNot
  | lparen
  | rparen
deriving DecidableEq

/-- A character that may appear inside an identifier segment. -/
def isWordChar (c : Char) : Bool :=
  c.isAlphanum || c = '_'

/-- Split a dotted identifier into its path segments. -/
def splitDotsAux : List Char → List Char → List String
  | [], acc => [String.mk acc.reverse]
  | '.' :: rest, acc => String.mk acc.reverse :: splitDotsAux rest []
  | c :: rest, acc => splitDotsAux rest (c :: acc)

/-- Path segments of a dotted identifier. -/
def splitDots (w : String) : List String :=
  splitDotsAux w.data []

/-- Classify a bare word: boolean connectives and operator keywords are
recognized case-insensitively; anything else is an attribute path. -/
def classifyWord (w : String) : Tok :=
  let lw := lowerStr w
  if lw = "and" then Tok.kwAnd
  else if lw = "or" then Tok.kwOr
  else if lw = "not" then Tok.kwNot
  else if lw = "is" then Tok.opTok Op.eq
  else if lw = "contains" then Tok.opTok Op.contains
  else if lw = "regexp" then Tok.regexTok false
  else if lw = "iregexp" then Tok.regexTok true
  else Tok.path (splitDots w)

/-- Scan to the closing quote; `none` means the literal is unterminated. -/
def takeUntilQuote (q : Char) : List Char → Option (List Char × List Char)
  | [] => none
  | c :: rest =>
    if c = q then some ([], rest)
    else (takeUntilQuote q rest).map (fun p => (c :: p.1, p.2))

/-- The fuelled lexer loop; every step consumes at least one character, so
fuel `length + 1` always suffices. -/
def lexFuel : Nat → List Char → Except String (List Tok)
  | 0, _ => Except.error "lexer out of fuel"
  | _ + 1, [] => Except.ok []
  | f + 1, c :: rest =>
    if c = ' ' || c = '\t' || c = '\n' || c = '\r' then lexFuel f rest
    else if c = '(' then (lexFuel f rest).map (fun ts => Tok.lparen :: ts)
    else if c = ')' then (lexFuel f rest).map (fun ts => Tok.rparen :: ts)
    else if c = '<' then
      match rest with
      | '=' :: r2 => (lexFuel f r2).map (fun ts => Tok.opTok Op.le :: ts)
      | _ => (lexFuel f rest).map (fun ts => Tok.opTok Op.lt :: ts)
    else if c = '>' then
      match rest with
      | '=' :: r2 => (lexFuel f r2).map (fun ts => Tok.opTok Op.ge :: ts)
      | _ => (lexFuel f rest).map (fun ts => Tok.opTok Op.gt :: ts)
    else if c = '\'' || c = '"' then
      match takeUntilQuote c rest with
      | none => Except.error "unterminated string literal"
      | some (content, r2) =>
        (lexFuel f r2).map (fun ts => Tok.strLit (String.mk content) :: ts)
    else if c.isDigit then
      let s := spanP Char.isDigit (c :: rest)
      (lexFuel f s.2).map (fun ts => Tok.numLit (Int.ofNat (natOfDigits s.1)) :: ts)
    else if isWordChar c || c = '.' then
      let s := spanP (fun ch => isWordChar ch || ch = '.') (c :: rest)
      (lexFuel f s.2).map (fun ts => classifyWord (String.mk s.1) :: ts)
    else Except.error "unrecognized character"

/-- Lex a query string into tokens. -/
def lexQuery (s : String) : Except String (List Tok) :=
  lexFuel (s.data.length + 1) s.data

/-! ## Parser

Modelled from the spec (section 4.2): `or` over `and` over unary, with
parenthesized grouping; a comparison is a path, an optional `not` before
the operator (or after `is`), an operator, and a literal. A `not` that is
followed by anything but an operator — in particular by a second `not` —
is a parse error, never a cancelled negation. -/

/-- View a token as a comparison operator. -/
def parseOperatorTok : Tok → Option Op
  | Tok.opTok o => some o
  | _ => none

/-- Finish a comparison by reading its literal. -/
def parseCmpLit (segs : List String) (neg : Bool) (op : Op) :
    List Tok → Except String (Comparison × List Tok)
  | Tok.strLit s :: r => Except.ok (⟨segs, neg, op, Literal.str s⟩, r)
  | Tok.numLit n :: r => Except.ok (⟨segs, neg, op, Literal.int n⟩, r)
  | _ => Except.error "expected a literal"

/-- Parse one comparison: path, optional negation, operator, literal. -/
def parseComparison : List Tok → Except String (Comparison × List Tok)
  | Tok.path segs :: rest =>
    match rest with
    | Tok.kwNot :: rest2 =>
      match rest2 with
      | t :: rest3 =>
        match parseOperatorTok t with
        | some op => parseCmpLit segs true op rest3
        | none => Except.error "expected an operator after not"
      | [] => Except.error "expected an operator after not"
    | t :: rest2 =>
      match parseOperatorTok t with
      | some op =>
        match op, rest2 with
        | Op.eq, Tok.kwNot :: rest3 => parseCmpLit segs true Op.eq rest3
        | _, _ => parseCmpLit segs false op rest2
      | none => Except.error "expected an operator"
    | [] => Except.error "expected an operator"
  | _ => Except.error "expected an attribute path"

mutual

/-- Parse an `or`-level expression. -/
def parseOrE : Nat → List Tok → Except String (Ast × List Tok)
  | 0, _ => Except.error "out of fuel"
  | f + 1, toks =>
    match parseAndE f toks with
    | Except.error e => Except.error e
    | Except.ok (a, rest) => parseOrRest f a rest

/-- Fold further `or` operands onto an accumulated expression. -/
def parseOrRest : Nat → Ast → List Tok → Except String (Ast × List Tok)
  | 0, _, _ => Except.error "out of fuel"
  | f + 1, acc, toks =>
    match toks with
    | Tok.kwOr :: rest =>
      match parseAndE f rest with
      | Except.error e => Except.error e
      | Except.ok (b, rest2) => parseOrRest f (Ast.disj acc b) rest2
    | _ => Except.ok (acc, toks)

/-- Parse an `and`-level expression. -/
def parseAndE : Nat → List Tok → Except String (Ast × List Tok)
  | 0, _ => Except.error "out of fuel"
  | f + 1, toks =>
    match parseUnaryE f toks with
    | Except.error e => Except.error e
    | Except.ok (a, rest) => parseAndRest f a rest

/-- Fold further `and` operands onto an accumulated expression. -/
def parseAndRest : Nat → Ast → List Tok → Except String (Ast × List Tok)
  | 0, _, _ => Except.error "out of fuel"
  | f + 1, acc, toks =>
    match toks with
    | Tok.kwAnd :: rest =>
      match parseUnaryE f rest with
      | Except.error e => Except.error e
      | Except.ok (b, rest2) => parseAndRest f (Ast.conj acc b) rest2
    | _ => Except.ok (acc, toks)

/-- Parse a parenthesized group or a comparison. -/
def parseUnaryE : Nat → List Tok → Except String (Ast × List Tok)
  | 0, _ => Except.error "out of fuel"
  | f + 1, toks =>
    match toks with
    | Tok.lparen :: rest =>
      match parseOrE f rest with
      | Except.ok (a, Tok.rparen :: r2) => Except.ok (a, r2)
      | Except.ok _ => Except.error "expected a closing parenthesis"
      | Except.error e => Except.error e
    | _ => (parseComparison toks).map (fun p => (Ast.cmp p.1, p.2))

end

/-- Parse a full token sequence into an AST. -/
def parseToks (toks : List Tok) : Except String Ast :=
  match parseOrE (4 * toks.length + 8) toks with
  | Except.error e => Except.error e
  | Except.ok (a, []) => Except.ok a
  | Except.ok (_, _ :: _) => Except.error "unexpected trailing tokens"

/-- Compile a query string into an AST (spec section 6, Matcher API). -/
def compileQuery (q : String) : Except String Ast :=
  match lexQuery q with
  | Except.error e => Except.error e
  | Except.ok toks => parseToks toks

/-- Compile and evaluate a query against a record. -/
def matchQuery (q : String) (r : Record) : Except String Bool :=
  (compileQuery q).map (fun a => evalAst r a)

/-! ## Producer pre-selection

Modelled from the spec (section 4.6): a companion routine statically
checks which registered producers could ever satisfy a query by evaluating
the AST's comparison terminals against each producer's declared constant
attributes; a comparison on an attribute the producer does not declare
constant is treated as satisfiable. Per the test's expectations
(`pfilter_test.py`, `testParserFilter`), the constant attribute the
registry exposes is the producer's name under the `parser` key. -/

/-- A registered event producer: its name and its declared constant
attributes. -/
structure Producer where
  name : String
  consts : List (String × Value)

/-- Statically evaluate one comparison against a producer's constants:
exact evaluation when the (aliased) single-segment path names a constant,
otherwise the comparison is considered satisfiable. -/
def selEvalComp (p : Producer) (c : Comparison) (zone : Int) : Bool :=
  match c.path with
  | [k] =>
    match lookupAttr p.consts (aliasSegment k) with
    | some v => (evalOpCore v c.op c.lit zone) != c.negated
    | none => true
  | _ => true

/-- Statically evaluate a query AST against a producer's constants. -/
def selEval (p : Producer) (zone : Int) : Ast → Bool
  | Ast.cmp c => selEvalComp p c zone
  | Ast.conj a b => selEval p zone a && selEval p zone b
  | Ast.disj a b => selEval p zone a || selEval p zone b

/-- Compile a query and return the names of the producers whose constant
attributes are compatible with it. -/
def findApplicableProducers (q : String) (ps : List Producer) :
    Except String (List String) :=
  (compileQuery q).map (fun a => (ps.filter (fun p => selEval p 0 a)).map Producer.name)

/-- The three fake producers registered by the test: same `NONE` parser
type, distinct constant sources, distinct class names exposed as the
`parser` constant. -/
def fakeProducers : List Producer :=
  [⟨"FakeParser", [("parser", Value.str "FakeParser")]⟩,
   ⟨"AnotherParser", [("parser", Value.str "AnotherParser")]⟩,
   ⟨"AllEvilParser", [("parser", Value.str "AllEvilParser")]⟩]

/-! ## The test record

The event and container built in `pfilter_test.py` `testPlasoEvents`:
timestamp 2015-11-18T01:15:43 UTC, the container carrying the source
attributes, default UTC timezone. -/

/-- The nested map stored under `mydict`. -/
def myDictValue : Value :=
  Value.dict [("value", Value.int 134), ("another", Value.str "value"),
    ("A Key (with stuff)", Value.str "Here")]

/-- The event object of `testPlasoEvents`, with its owning container's
attributes. -/
def testEvent : Record where
  attrs :=
    [("timestamp", Value.int 1447809343000000),
     ("timestamp_desc", Value.str "Last Written"),
     ("text_short", Value.str "This description is different than the long one."),
     ("text", Value.str "User did a very bad thing, bad, bad thing that awoke Dr. Evil."),
     ("filename", Value.str "/My Documents/goodfella/Documents/Hideout/myfile.txt"),
     ("hostname", Value.str "Agrabah"),
     ("parser", Value.str "Weirdo"),
     ("inode", Value.str "1245"),
     ("mydict", myDictValue),
     ("display_name", Value.str "unknown:/My Documents/goodfella/Documents/Hideout/myfile.txt")]
  containerAttrs :=
    [("data_type", Value.str "test:pfilter"),
     ("source_short", Value.str "REG"),
     ("source_long", Value.str "Made up Source")]
  timestamp := 1447809343000000
  zoneOffset := 0

/-- Follows the spec's words in section 4.4, for comparison with the
implementation's operator: `Contains`: true iff the literal,
case-sensitively, is a substring of the resolved value's string form. -/
def specCaseSensitiveContains (value literal : String) : Bool :=
  listContains literal.data value.data

/-! ## Android bugreport plugin

Embedded from `src/plaso/parsers/android_bugreport.py`. Python objects are
modelled as attribute association lists (`setattr` updates an existing key
or appends a new one), which keeps the source's two typos observable: the
`event_data.mesesage = message` assignment in `_ParseDbInfoMREStructure`
and the `'...'.foramt(key)` call in `ParseRecord`'s raise statement. -/

namespace AndroidBugreport

/-- A Python attribute value as this plugin uses them. -/
inductive PyVal where
  | pyNone
  | pyStr (s : String)
  | pyStrList (l : List String)
deriving DecidableEq

/-- Python `setattr`: replace the attribute if present, else add it. -/
def pySetAttr (o : List (String × PyVal)) (k : String) (v : PyVal) :
    List (String × PyVal) :=
  if o.any (fun p => p.1 = k) then
    o.map (fun p => if p.1 = k then (k, v) else p)
  else o ++ [(k, v)]

/-- Python `getattr`: the attribute's value, if the object has it. -/
def pyGetAttr (o : List (String × PyVal)) (k : String) : Option PyVal :=
  match o.find? (fun p => p.1 = k) with
  | some p => some p.2
  | none => none

/-- The seven components `_ParseDateTimeMicroSeconds` reads from a
`DATE_TIME_MSEC` structure. -/
structure TimeElementsTuple where
  year : Nat
  month : Nat
  dayOfMonth : Nat
  hours : Nat
  minutes : Nat
  seconds : Nat
  microseconds : Nat
deriving DecidableEq

/-- One entry of the `Most recently executed operations` section: the
grammar's `db_operation` group (index, bracketed timestamp, the message
token group, the quoted sql statement, the rest-of-line path). -/
structure DbOperation where
  opIndex : String
  dateTimeMsec : TimeElementsTuple
  messageTokens : List String
  sqlStatement : String
  path : String

/-- One entry of the `Database files in <path>` section: the grammar's
`file_info` group. -/
structure FileInfo where
  name : String
  size : String
  unit : String
  creationTime : String
  modificationTime : String
  accessTime : String

/-- A parsed line structure handed to `ParseRecord`: either section's
result. `_GetValueFromStructure` on a name the structure lacks yields its
default (`[]` for the operation list, `None` for the stat path). -/
inductive ParsedStructure where
  | mre (ops : List DbOperation)
  | stat (path : String) (fileInfos : List FileInfo)

/-- `structure.get('db_operation', [])`. -/
def getDbOperations : ParsedStructure → List DbOperation
  | ParsedStructure.mre ops => ops
  | ParsedStructure.stat _ _ => []

/-- The `path` and `file_info` values of a structure, with the
`_GetValueFromStructure` defaults. -/
def getStatFields : ParsedStructure → Option String × List FileInfo
  | ParsedStructure.stat p fis => (some p, fis)
  | ParsedStructure.mre _ => (none, [])

/-- The timestamp value attached to a produced event: either the parsed
time-element tuple (MRE events) or the raw `...Z` time string handed to
the date-time conversion (stat events). -/
inductive TimeVal where
  | elems (t : TimeElementsTuple)
  | raw (s : String)

/-- An event handed to `parser_mediator.ProduceEventWithEventData`: the
time description constant, the time value, and the event-data object's
attributes. -/
structure ProducedEvent where
  timeDesc : String
  timeValue : TimeVal
  eventData : List (String × PyVal)

/-- The attributes `AndroidMostRecentlyExecutedEventData.__init__` sets. -/
def mreEventDataInit : List (String × PyVal) :=
  [("data_type", PyVal.pyStr "android:dbinfo:mre"),
   ("message", PyVal.pyNone),
   ("path", PyVal.pyNone),
   ("sql_statement", PyVal.pyNone)]

/-- The attributes `AndroidDBInfoStatEventData.__init__` sets. -/
def statEventDataInit : List (String × PyVal) :=
  [("data_type", PyVal.pyStr "android:dbinfo:stat"),
   ("name", PyVal.pyNone),
   ("path", PyVal.pyNone),
   ("size", PyVal.pyNone)]

/-- The event `_ParseDbInfoMREStructure` produces for one operation. Note
the source assigns the parsed message to the misspelled attribute
`mesesage` (android_bugreport.py line 189). -/
def mreEventOfOperation (op : DbOperation) : ProducedEvent where
  timeDesc := "TIME_DESCRIPTION_RECORDED"
  timeValue := TimeVal.elems op.dateTimeMsec
  eventData :=
    pySetAttr
      (pySetAttr
        (pySetAttr mreEventDataInit "mesesage" (PyVal.pyStrList op.messageTokens))
        "path" (PyVal.pyStr op.path))
      "sql_statement" (PyVal.pyStr op.sqlStatement)

/-- `_ParseDbInfoMREStructure`: one event per `db_operation` group. -/
def parseDbInfoMREStructure (ops : List DbOperation) : List ProducedEvent :=
  ops.map mreEventOfOperation

/-- `_ParseDbInfoFileStatStructure`: up to three events (creation,
modification, access) per `file_info` group, each guarded by the time
string being non-empty. -/
def parseDbInfoFileStatStructure (path : Option String) (infos : List FileInfo) :
    List ProducedEvent :=
  infos.flatMap (fun fi =>
    let ed :=
      pySetAttr
        (pySetAttr
          (pySetAttr statEventDataInit "name" (PyVal.pyStr fi.name))
          "path" (path.elim PyVal.pyNone PyVal.pyStr))
        "size" (PyVal.pyStr fi.size)
    (if fi.creationTime ≠ "" then
      [⟨"TIME_DESCRIPTION_CREATION", TimeVal.raw fi.creationTime, ed⟩] else []) ++
    (if fi.modificationTime ≠ "" then
      [⟨"TIME_DESCRIPTION_MODIFICATION", TimeVal.raw fi.modificationTime, ed⟩] else []) ++
    (if fi.accessTime ≠ "" then
      [⟨"TIME_DESCRIPTION_LAST_ACCESS", TimeVal.raw fi.accessTime, ed⟩] else []))

/-- The keys of `LINE_STRUCTURES`. -/
def SUPPORTED_KEYS : List String := ["dbinfo_mre", "dbinfo_stat"]

/-- The exceptions this fragment can raise. -/
inductive PyException where
  | attributeError (msg : String)
  | parseError (msg : String)
deriving DecidableEq

/-- The attribute names the `str` type actually has among those this module
asks for: `format` exists, the misspelling `foramt` does not. -/
def strMethodTable : List String := ["format"]

/-- Python `'template'.format(arg)` for the one-placeholder template the
raise statement uses. -/
def formatMessage (template arg : String) : String :=
  match template.splitOn "\x7b0:s\x7d" with
  | [a, b] => a ++ arg ++ b
  | _ => template

/-- `AndroidBugreportParser.ParseRecord`. An unsupported key reaches the
raise statement, whose argument `'...'.foramt(key)` performs an attribute
lookup of `foramt` on `str` — which fails, so an `AttributeError` is
raised before any `ParseError` can be constructed. -/
def ParseRecord (key : String) (s : ParsedStructure) :
    Except PyException (List ProducedEvent) :=
  if key ∉ SUPPORTED_KEYS then
    if "foramt" ∈ strMethodTable then
      Except.error (PyException.parseError
        (formatMessage "Unable to parse record, unknown structure: \x7b0:s\x7d" key))
    else
      Except.error (PyException.attributeError
        "'str' object has no attribute 'foramt'")
  else if key = "dbinfo_stat" then
    Except.ok (parseDbInfoFileStatStructure (getStatFields s).1 (getStatFields s).2)
  else if key = "dbinfo_mre" then
    Except.ok (parseDbInfoMREStructure (getDbOperations s))
  else
    Except.ok []

end AndroidBugreport

/-! ## Claims -/

/-- C1 (counterexample): the claim that `contains` is case-sensitive fails
on the code: the test asserts `filename contains 'GoodFella'` matches a
path whose text is `goodfella`, so the operator evaluates true although
the literal, case-sensitively, is not a substring of the value. -/
theorem contains_case_sensitivity_refuted :
    evalOpCore (Value.str "/My Documents/goodfella/Documents/Hideout/myfile.txt")
      Op.contains (Literal.str "GoodFella") 0 = true ∧
    specCaseSensitiveContains
      "/My Documents/goodfella/Documents/Hideout/myfile.txt" "GoodFella" = false := by
  exact ⟨by decide, by decide⟩

/-- C1 (amended): for every resolved value and string literal, the domain's
`contains` operator evaluates true iff the literal, case-insensitively, is
a substring of the resolved value's string form (both sides lowercased);
a literal differing only in letter case from the attribute's text still
matches. -/
theorem contains_iff_case_insensitive_substring (v : Value) (t : String) (zone : Int) :
    evalOpCore v Op.contains (Literal.str t) zone = true ↔
    ∃ s, strForm v = some s ∧
      ∃ p q, (lowerStr s).data = p ++ (lowerStr t).data ++ q := by
  cases v with
  | str s => simp [evalOpCore, strForm, listContains_iff]
  | int n => simp [evalOpCore, strForm, listContains_iff]
  | dict entries => simp [evalOpCore, strForm]
  | tstamp m => simp [evalOpCore, strForm]

/-- C2: the query `filename contains 'GoodFella'`, compiled and evaluated
against the test record whose filename is
`/My Documents/goodfella/Documents/Hideout/myfile.txt`, evaluates true. -/
theorem goodfella_query_matches :
    matchQuery "filename contains 'GoodFella'" testEvent = Except.ok true := by
  rfl

/-- C3: a `not` token immediately followed by another `not` token where a
comparison operator is required is a parse error — for any path and any
following tokens — and in particular the query
`filename not not contains 'GoodFella'` fails to compile; the double `not`
is never reinterpreted as a cancelled negation. -/
theorem double_not_is_parse_error :
    (∀ (segs : List String) (rest : List Tok),
      parseComparison (Tok.path segs :: Tok.kwNot :: Tok.kwNot :: rest) =
        Except.error "expected an operator after not") ∧
    compileQuery "filename not not contains 'GoodFella'" =
      Except.error "expected an operator after not" := by
  exact ⟨fun _ _ => rfl, rfl⟩

/-- C4: the record timestamped 2015-11-18T01:15:43 UTC with the default
UTC timezone satisfies `date >= '2015-11-18'` and `date < '2015-11-19'`
but not `date > '2015-11-19'`: date literals are parsed in the record's
assigned timezone and compared chronologically. -/
theorem date_comparisons_utc :
    matchQuery "date >= '2015-11-18'" testEvent = Except.ok true ∧
    matchQuery "date < '2015-11-19'" testEvent = Except.ok true ∧
    matchQuery "date > '2015-11-19'" testEvent = Except.ok false := by
  exact ⟨rfl, rfl, rfl⟩

/-- C5: nested-map segments resolve under normalized key comparison
(non-alphanumeric characters stripped, case ignored): the key
`A Key (with stuff)` is reachable via the segment `akeywithstuff` on the
test record; a segment matching no normalized key resolves as absent, and
a segment matching some normalized key resolves to a value. -/
theorem nested_map_normalized_lookup :
    normalizeKey "A Key (with stuff)" = "akeywithstuff" ∧
    resolvePath testEvent ["mydict", "akeywithstuff"] = some (Value.str "Here") ∧
    (∀ (entries : List (String × Value)) (seg : String),
      (∀ p ∈ entries, normalizeKey p.1 ≠ normalizeKey seg) →
      dictLookup seg entries = none) ∧
    (∀ (entries : List (String × Value)) (seg k : String) (v : Value),
      (k, v) ∈ entries → normalizeKey k = normalizeKey seg →
      ∃ w, dictLookup seg entries = some w) := by
  refine ⟨rfl, rfl, ?_, ?_⟩
  · intro entries seg h
    induction entries with
    | nil => rfl
    | cons p rest ih =>
      obtain ⟨k, v⟩ := p
      have hk : normalizeKey k ≠ normalizeKey seg := h (k, v) (by simp)
      simp only [dictLookup, if_neg hk]
      exact ih (fun q hq => h q (by simp [hq]))
  · intro entries seg k v hmem heq
    induction entries with
    | nil => cases hmem
    | cons p rest ih =>
      obtain ⟨k', v'⟩ := p
      by_cases hk : normalizeKey k' = normalizeKey seg
      · exact ⟨v', by simp [dictLookup, hk]⟩
      · rcases List.mem_cons.mp hmem with heq2 | hmem2
        · obtain ⟨rfl, rfl⟩ := Prod.mk.injEq .. ▸ heq2
          exact absurd heq hk
        · simpa [dictLookup, hk] using ih hmem2

/-- C5 (witness): the generic parts of `nested_map_normalized_lookup`
applied to concrete maps and segments. -/
theorem nested_map_normalized_lookup_witness :
    dictLookup "nosuchkey" [("A Key (with stuff)", Value.str "Here")] = none ∧
    ∃ w, dictLookup "akeywithstuff" [("A Key (with stuff)", Value.str "Here")] = some w := by
  constructor
  · exact nested_map_normalized_lookup.2.2.1
      [("A Key (with stuff)", Value.str "Here")] "nosuchkey"
      (by intro p hp; simp at hp; rw [hp]; decide)
  · exact nested_map_normalized_lookup.2.2.2
      [("A Key (with stuff)", Value.str "Here")] "akeywithstuff"
      "A Key (with stuff)" (Value.str "Here") (by simp) (by decide)

/-- C6: when the (aliased) first path segment is absent on the record's own
attributes, resolution falls back to the owning container's attributes; in
particular `source is 'REG'` matches the test record, whose container —
not the record itself — carries `source_short = 'REG'`. -/
theorem container_fallback :
    (∀ (r : Record) (seg : String) (rest : List String),
      seg ≠ "date" →
      lookupAttr r.attrs (aliasSegment seg) = none →
      resolvePath r (seg :: rest) =
        match lookupAttr r.containerAttrs (aliasSegment seg) with
        | some v => resolveInto v rest
        | none => none) ∧
    matchQuery "source is 'REG'" testEvent = Except.ok true := by
  refine ⟨?_, rfl⟩
  intro r seg rest hseg habs
  simp [resolvePath, hseg, habs]

/-- C6 (witness): the fallback rule of `container_fallback` applied to the
test record and the aliased `source` segment, which is absent on the
record's own attributes. -/
theorem container_fallback_witness :
    resolvePath testEvent ["source"] =
      match lookupAttr testEvent.containerAttrs (aliasSegment "source") with
      | some v => resolveInto v []
      | none => none :=
  container_fallback.1 testEvent "source" [] (by decide) (by rfl)

/-- C7: per-record evaluation is total, and a comparison whose attribute
path is wholly absent evaluates false while its negated form evaluates
true, rather than aborting the scan. -/
theorem absent_path_comparison :
    ∀ (r : Record) (path : List String) (op : Op) (lit : Literal),
      resolvePath r path = none →
      evalComparison r ⟨path, false, op, lit⟩ = false ∧
      evalComparison r ⟨path, true, op, lit⟩ = true := by
  intro r path op lit h
  constructor <;> simp [evalComparison, h]

/-- C7 (witness): `absent_path_comparison` at the test record and the
absent path `mydict.notthere`. -/
theorem absent_path_comparison_witness :
    evalComparison testEvent ⟨["mydict", "notthere"], false, Op.eq, Literal.int 123⟩ = false ∧
    evalComparison testEvent ⟨["mydict", "notthere"], true, Op.eq, Literal.int 123⟩ = true :=
  absent_path_comparison testEvent ["mydict", "notthere"] Op.eq (Literal.int 123) (by rfl)

/-- C8: the pre-selection query `source is "REG" AND message CONTAINS "is"`
keeps all three registered fake producers, and pre-selection is sound: for
any producer whose constant attributes agree with a record, a query the
record satisfies is never excluded for that producer. -/
theorem producer_preselection :
    findApplicableProducers "source is \"REG\" AND message CONTAINS \"is\"" fakeProducers =
      Except.ok ["FakeParser", "AnotherParser", "AllEvilParser"] ∧
    ∀ (p : Producer) (r : Record) (a : Ast),
      (∀ k v, lookupAttr p.consts (aliasSegment k) = some v →
        resolvePath r [k] = some v) →
      evalAst r a = true → selEval p r.zoneOffset a = true := by
  refine ⟨rfl, ?_⟩
  intro p r a H
  induction a with
  | cmp c =>
    intro h
    obtain ⟨path, neg, op, lit⟩ := c
    cases path with
    | nil => simp [selEval, selEvalComp]
    | cons k rest =>
      cases rest with
      | cons k2 rest2 => simp [selEval, selEvalComp]
      | nil =>
        simp only [selEval, selEvalComp]
        cases hl : lookupAttr p.consts (aliasSegment k) with
        | none => rfl
        | some v =>
          have hr := H k v hl
          simp only [evalAst, evalComparison, hr] at h
          exact h
  | conj a b iha ihb =>
    intro h
    simp only [evalAst, Bool.and_eq_true] at h
    simp only [selEval, Bool.and_eq_true]
    exact ⟨iha h.1, ihb h.2⟩
  | disj a b iha ihb =>
    intro h
    simp only [evalAst, Bool.or_eq_true] at h
    simp only [selEval, Bool.or_eq_true]
    exact h.imp iha ihb

/-- C8 (witness): soundness of `producer_preselection` applied to the
FakeParser producer, a record carrying the matching `parser` attribute,
and a satisfied comparison on that constant. -/
theorem producer_preselection_witness :
    selEval ⟨"FakeParser", [("parser", Value.str "FakeParser")]⟩ 0
      (Ast.cmp ⟨["parser"], false, Op.eq, Literal.str "FakeParser"⟩) = true := by
  have hr :
      (⟨[("parser", Value.str "FakeParser")], [], 0, 0⟩ : Record).zoneOffset = 0 := rfl
  refine hr ▸ producer_preselection.2
    ⟨"FakeParser", [("parser", Value.str "FakeParser")]⟩
    ⟨[("parser", Value.str "FakeParser")], [], 0, 0⟩
    (Ast.cmp ⟨["parser"], false, Op.eq, Literal.str "FakeParser"⟩)
    ?_ (by rfl)
  intro k v h
  by_cases hs : k = "source"
  · rw [hs] at h
    have ha : aliasSegment "source" = "source_short" := rfl
    rw [ha] at h
    simp only [lookupAttr] at h
    rw [if_neg (by decide : ¬("parser" : String) = "source_short")] at h
    exact Option.noConfusion h
  · have hk : aliasSegment k = k := by simp [aliasSegment, hs]
    rw [hk] at h
    simp only [lookupAttr] at h
    by_cases hp : k = "parser"
    · subst hp
      simp only [if_pos rfl] at h
      cases h
      rfl
    · rw [if_neg (fun he => hp he.symm)] at h
      exact Option.noConfusion h

/-- C9: for every structure key outside the supported set,
`AndroidBugreportParser.ParseRecord` raises — but, contrary to its own
docstring (`Raises: ParseError: when the structure type is unknown`), it
raises an `AttributeError`: the raise statement's argument calls the
nonexistent string method `foramt` (android_bugreport.py line 252), so no
`ParseError` carrying the unknown key's name is ever produced; no events
are produced either way. -/
theorem unknown_key_raises_attribute_error :
    ∀ (key : String) (s : AndroidBugreport.ParsedStructure),
      key ∉ AndroidBugreport.SUPPORTED_KEYS →
      AndroidBugreport.ParseRecord key s =
        Except.error (AndroidBugreport.PyException.attributeError
          "'str' object has no attribute 'foramt'") ∧
      ∀ msg, AndroidBugreport.ParseRecord key s ≠
        Except.error (AndroidBugreport.PyException.parseError msg) := by
  intro key s h
  have h1 : AndroidBugreport.ParseRecord key s =
      Except.error (AndroidBugreport.PyException.attributeError
        "'str' object has no attribute 'foramt'") := by
    unfold AndroidBugreport.ParseRecord
    rw [if_pos h, if_neg (by decide)]
  refine ⟨h1, ?_⟩
  intro msg hc
  rw [h1] at hc
  simp at hc

/-- C9 (witness): `unknown_key_raises_attribute_error` at the concrete
unsupported key `bogus`. -/
theorem unknown_key_raises_attribute_error_witness :
    "bogus" ∉ AndroidBugreport.SUPPORTED_KEYS ∧
    AndroidBugreport.ParseRecord "bogus" (AndroidBugreport.ParsedStructure.mre []) =
      Except.error (AndroidBugreport.PyException.attributeError
        "'str' object has no attribute 'foramt'") :=
  ⟨by decide,
    (unknown_key_raises_attribute_error "bogus"
      (AndroidBugreport.ParsedStructure.mre []) (by decide)).1⟩

/-- C10: for every database-operation structure of a `Most recently
executed operations` section, the produced event data's `message`
attribute is left at its initial `None` — the source assigns the parsed
status message to the misspelled attribute `mesesage`
(android_bugreport.py line 189) — while `path` and `sql_statement` are set
to the parsed values. -/
theorem mre_message_left_none :
    ∀ (op : AndroidBugreport.DbOperation),
      AndroidBugreport.pyGetAttr
          (AndroidBugreport.mreEventOfOperation op).eventData "message" =
        some AndroidBugreport.PyVal.pyNone ∧
      AndroidBugreport.pyGetAttr
          (AndroidBugreport.mreEventOfOperation op).eventData "mesesage" =
        some (AndroidBugreport.PyVal.pyStrList op.messageTokens) ∧
      AndroidBugreport.pyGetAttr
          (AndroidBugreport.mreEventOfOperation op).eventData "path" =
        some (AndroidBugreport.PyVal.pyStr op.path) ∧
      AndroidBugreport.pyGetAttr
          (AndroidBugreport.mreEventOfOperation op).eventData "sql_statement" =
        some (AndroidBugreport.PyVal.pyStr op.sqlStatement) := by
  intro op
  exact ⟨rfl, rfl, rfl, rfl⟩
